import Mathlib

/-!
# Verification of the order/cart/stock workflow

Shallow embedding of the order-creation, order-cancellation, order-status
and add-to-cart handlers of the marketplace backend
(`src/controllers/event.controller.ts`, order/cart sections).

The database is modelled as an explicit state (`DB`) holding the rows of the
`Product`, `CartItem`, `Order` and `OrderItem` tables.  Each handler becomes a
pure function `... → DB → DB × Except ApiError α`: the returned `DB` is the
persisted state after the handler ran (writes performed before a thrown error
persist, as in the source, which uses no transaction), and the `Except` value
is the HTTP outcome.  JavaScript numbers are modelled as `Int`
(stock arithmetic `product.stock - item.quantity` may go below zero in JS, so
`Nat` truncation would be unfaithful).  Row ids generated by the database are
modelled by counters `nextOrderId` / `nextCartItemId` in the state.
-/

set_option maxHeartbeats 1000000

namespace Shop

/-- Order status enum, closed set used by the `Order.status` column. -/
inductive OrderStatus where
  | PENDING | PAID | SHIPPED | DELIVERED | CANCELLED
deriving DecidableEq, Repr

/-- A `Product` row: `id, price, stock, name, isActive` (the columns the
modelled handlers read). -/
structure Product where
  id : String
  price : Int
  stock : Int
  name : String
  isActive : Bool
deriving DecidableEq, Repr

/-- A `CartItem` row: one pending line of a user's cart. -/
structure CartItem where
  id : Nat
  userId : String
  productId : String
  quantity : Int
deriving DecidableEq, Repr

/-- An `Order` header row. -/
structure Order where
  id : Nat
  userId : String
  totalPrice : Int
  shippingAddress : String
  status : OrderStatus
deriving DecidableEq, Repr

/-- An `OrderItem` row: immutable snapshot of product price and quantity at
order time. -/
structure OrderItem where
  orderId : Nat
  productId : String
  quantity : Int
  unitPrice : Int
deriving DecidableEq, Repr

/-- The database state seen by the handlers. -/
structure DB where
  products : List Product
  cartItems : List CartItem
  orders : List Order
  orderItems : List OrderItem
  nextOrderId : Nat
  nextCartItemId : Nat
deriving DecidableEq, Repr

/-- The error taxonomy of the modelled handlers, one constructor per
`createError(...)` site (plus `internalError` for a runtime `TypeError` on a
missing joined product, surfaced as a 500 by the error middleware). -/
inductive ApiError where
  | cartEmpty                            -- 'Cart is empty' (400)
  | insufficientStockFor (name : String) -- `Insufficient stock for <name>` (400)
  | failedCreateOrder                    -- 'Failed to create order' (500)
  | failedCreateOrderItems               -- 'Failed to create order items' (500)
  | orderNotFound                        -- 'Order not found' (404)
  | notAuthorizedCancel                  -- 'Not authorized to cancel this order' (403)
  | cannotCancelStatus (st : OrderStatus) -- 'Cannot cancel order with status: ...' (400)
  | failedUpdateStatus                   -- 'Failed to update order status' (500)
  | productNotFound                      -- 'Product not found' (404)
  | productNotAvailable                  -- 'Product is not available' (400)
  | insufficientStock                    -- 'Insufficient stock' (400)
  | insufficientStockRequested           -- 'Insufficient stock for requested quantity' (400)
  | internalError                        -- uncaught TypeError → 500
deriving DecidableEq, Repr

/-- `supabase.from('Product').select(...).eq('id', pid).single()`. -/
def findProduct (db : DB) (pid : String) : Option Product :=
  db.products.find? (fun p => p.id == pid)

/-- `supabase.from('Product').update({ stock: v }).eq('id', pid)`. -/
def setProductStock (db : DB) (pid : String) (v : Int) : DB :=
  { db with
    products := db.products.map (fun p => if p.id == pid then { p with stock := v } else p) }

/-- Stock of a product as currently stored, if the row exists. -/
def getStock (db : DB) (pid : String) : Option Int :=
  (findProduct db pid).map Product.stock

/-- `supabase.from('Order').select(...).eq('id', oid).single()`. -/
def findOrder (db : DB) (oid : Nat) : Option Order :=
  db.orders.find? (fun o => o.id == oid)

/-- The cart query of `createOrder`/`getCart`:
`from('CartItem').select(...).eq('userId', userId)`. -/
def userCart (db : DB) (uid : String) : List CartItem :=
  db.cartItems.filter (fun c => c.userId == uid)

/-- One staged order line of `createOrder` (the `orderItems` array built during
the validation loop). -/
structure StagedItem where
  productId : String
  quantity : Int
  unitPrice : Int
deriving DecidableEq, Repr

/-- The validation loop of `createOrder` (`for (const item of cartItems)`):
walks the cart lines in order; a line whose joined product is missing crashes
with a `TypeError` (modelled `internalError`); a line with
`product.stock < item.quantity` aborts with the stock error naming that
product; otherwise it accumulates `totalPrice += product.price * item.quantity`
and stages `{productId, quantity, unitPrice: product.price}`.  Also returns the
joined `(cartItem, product)` snapshot list used later by the stock-update
loop. -/
def validateCart (db : DB) : List CartItem →
    Except ApiError (Int × List StagedItem × List (CartItem × Product))
  | [] => .ok (0, [], [])
  | c :: rest =>
    match findProduct db c.productId with
    | none => .error .internalError
    | some p =>
      if p.stock < c.quantity then
        .error (.insufficientStockFor p.name)
      else
        match validateCart db rest with
        | .error e => .error e
        | .ok (t, staged, joined) =>
          .ok (p.price * c.quantity + t,
               ⟨p.id, c.quantity, p.price⟩ :: staged,
               (c, p) :: joined)

/-- `cartItems.find((c) => c.product.id === item.productId)?.product`: the
product snapshot (read at cart-fetch time) for a staged item. -/
def snapProduct (joined : List (CartItem × Product)) (pid : String) : Option Product :=
  (joined.find? (fun cp => cp.2.id == pid)).map Prod.snd

/-- The stock-update loop of `createOrder`: for each staged item, writes
`stock := snapshotStock - quantity`, where the snapshot stock is the one read
with the cart (not re-read).  A staged item whose product is absent from the
snapshot would crash in the source; that situation is unreachable because
every staged item was built from a joined product, and is modelled as a
no-op write here. -/
def applyStockUpdates (joined : List (CartItem × Product)) :
    DB → List StagedItem → DB
  | db, [] => db
  | db, it :: rest =>
    let db' :=
      match snapProduct joined it.productId with
      | some p => setProductStock db it.productId (p.stock - it.quantity)
      | none => db
    applyStockUpdates joined db' rest

/-- `createOrder` (`POST /api/orders`).  `failItems` injects the persistence
failure of the `OrderItem` insert (the `itemsError` branch of the source);
`false` is the normal run.  Sequence (as in the source): fetch cart → reject
empty cart → validate stock and build staged lines → insert the `Order` header
(status `PENDING`) → insert the `OrderItem` rows (on failure: one compensating
delete of the header, then error) → write each product's stock from its
snapshot → delete the user's cart lines. -/
def createOrder (failItems : Bool) (uid : String) (addr : String) (db : DB) :
    DB × Except ApiError Order :=
  let cart := userCart db uid
  if cart.isEmpty then
    (db, .error .cartEmpty)
  else
    match validateCart db cart with
    | .error e => (db, .error e)
    | .ok (total, staged, joined) =>
      let oid := db.nextOrderId
      let order : Order := ⟨oid, uid, total, addr, .PENDING⟩
      let db1 := { db with orders := db.orders ++ [order], nextOrderId := oid + 1 }
      if failItems then
        -- rollback: `await supabase.from('Order').delete().eq('id', order.id)`
        ({ db1 with orders := db1.orders.filter (fun o => !(o.id == oid)) },
         .error .failedCreateOrderItems)
      else
        let items := staged.map (fun it => OrderItem.mk oid it.productId it.quantity it.unitPrice)
        let db2 := { db1 with orderItems := db1.orderItems ++ items }
        let db3 := applyStockUpdates joined db2 staged
        let db4 := { db3 with cartItems := db3.cartItems.filter (fun c => !(c.userId == uid)) }
        (db4, .ok order)

/-- `updateOrderStatus` (`PUT /api/orders/:id/status`, STORE_OWNER/ADMIN):
writes the requested status with no transition check; the `.single()` select
errors when no row matched. -/
def updateOrderStatus (oid : Nat) (st : OrderStatus) (db : DB) :
    DB × Except ApiError Order :=
  match findOrder db oid with
  | none => (db, .error .failedUpdateStatus)
  | some order =>
    ({ db with
       orders := db.orders.map (fun o => if o.id == oid then { o with status := st } else o) },
     .ok { order with status := st })

/-- The stock-restore loop of `cancelOrder`: for each order item, re-reads the
product's current stock and writes `stock + quantity`; a missing product row is
skipped (`if (product)`). -/
def restoreStock : DB → List OrderItem → DB
  | db, [] => db
  | db, it :: rest =>
    let db' :=
      match findProduct db it.productId with
      | some p => setProductStock db it.productId (p.stock + it.quantity)
      | none => db
    restoreStock db' rest

/-- `cancelOrder` (`PUT /api/orders/:id/cancel`): not-found, then ownership,
then status guard (`['SHIPPED','DELIVERED','CANCELLED'].includes`), then stock
restore, then status write. -/
def cancelOrder (uid : String) (oid : Nat) (db : DB) : DB × Except ApiError Order :=
  match findOrder db oid with
  | none => (db, .error .orderNotFound)
  | some order =>
    if order.userId ≠ uid then
      (db, .error .notAuthorizedCancel)
    else if order.status = .SHIPPED ∨ order.status = .DELIVERED ∨ order.status = .CANCELLED then
      (db, .error (.cannotCancelStatus order.status))
    else
      let items := db.orderItems.filter (fun it => it.orderId == oid)
      let db1 := restoreStock db items
      ({ db1 with
         orders := db1.orders.map
           (fun o => if o.id == oid then { o with status := .CANCELLED } else o) },
       .ok { order with status := .CANCELLED })

/-- `addToCart` (`POST /api/cart`): product existence, `isActive`, and
`stock < quantity` checks; then either bumps an existing `(user, product)`
line (re-checking `stock < existing + quantity`) or inserts a new line. -/
def addToCart (uid : String) (pid : String) (qty : Int) (db : DB) :
    DB × Except ApiError CartItem :=
  match findProduct db pid with
  | none => (db, .error .productNotFound)
  | some p =>
    if !p.isActive then
      (db, .error .productNotAvailable)
    else if p.stock < qty then
      (db, .error .insufficientStock)
    else
      match db.cartItems.find? (fun c => c.userId == uid && c.productId == pid) with
      | some existing =>
        let newQuantity := existing.quantity + qty
        if p.stock < newQuantity then
          (db, .error .insufficientStockRequested)
        else
          ({ db with
             cartItems := db.cartItems.map
               (fun c => if c.id == existing.id then { c with quantity := newQuantity } else c) },
           .ok { existing with quantity := newQuantity })
      | none =>
        let item : CartItem := ⟨db.nextCartItemId, uid, pid, qty⟩
        ({ db with
           cartItems := db.cartItems ++ [item],
           nextCartItemId := db.nextCartItemId + 1 },
         .ok item)

/-- Spec-side reading of the order total: the sum over the cart lines of
`price * quantity`, prices read from the given database state (a line whose
product is missing contributes nothing; the code would have errored on it). -/
def cartTotalPrice (db : DB) : List CartItem → Int
  | [] => 0
  | c :: rest =>
    (match findProduct db c.productId with
     | some p => p.price * c.quantity
     | none => 0) + cartTotalPrice db rest

/-- Spec-side reading of the invariant sum: `Σ unitPrice * quantity` over a
list of order items. -/
def itemsTotal : List OrderItem → Int
  | [] => 0
  | it :: rest => it.unitPrice * it.quantity + itemsTotal rest

/-- Total quantity, across a list of order items, that references a given
product — what a full cancellation must add back to that product. -/
def restockQty (pid : String) : List OrderItem → Int
  | [] => 0
  | it :: rest => (if it.productId = pid then it.quantity else 0) + restockQty pid rest

/-- Overwrite one product row's `isActive` flag according to `f` (keyed by
product id); every other column is untouched. -/
def setActiveP (f : String → Bool) (p : Product) : Product :=
  { p with isActive := f p.id }

/-- Overwrite every product's `isActive` flag according to `f` (keyed by
product id), leaving every other column and table untouched. -/
def setActive (f : String → Bool) (db : DB) : DB :=
  { db with products := db.products.map (setActiveP f) }

/-- The state right after `createOrder` inserted the `Order` header and the
`OrderItem` rows (the two inserts only touch those two tables and consume the
generated order id). -/
def orderInsertState (db : DB) (uid addr : String) (t : Int)
    (staged : List StagedItem) : DB :=
  { db with
    orders := db.orders ++ [⟨db.nextOrderId, uid, t, addr, .PENDING⟩],
    orderItems := db.orderItems ++
      staged.map (fun it => OrderItem.mk db.nextOrderId it.productId it.quantity it.unitPrice),
    nextOrderId := db.nextOrderId + 1 }

/-- At most one cart line per `(user, product)` pair. -/
def CartUnique (db : DB) : Prop :=
  ∀ c1 ∈ db.cartItems, ∀ c2 ∈ db.cartItems,
    c1.userId = c2.userId → c1.productId = c2.productId → c1 = c2

/-! Concrete states used by witnesses and counterexamples. -/

/-- Scenario A of the spec: product stock 5 at price 100, one cart line of
quantity 2. -/
def dbA : DB :=
  ⟨[⟨"p1", 100, 5, "P", true⟩], [⟨1, "u1", "p1", 2⟩], [], [], 1, 2⟩

/-- Scenario B of the spec: product stock 1, one cart line of quantity 5. -/
def dbB : DB :=
  ⟨[⟨"p1", 100, 1, "P", true⟩], [⟨1, "u1", "p1", 5⟩], [], [], 1, 2⟩

/-- Scenario C of the spec: a PENDING order of 2 units of a product whose
stock is 3. -/
def dbC : DB :=
  ⟨[⟨"p1", 100, 3, "P", true⟩], [], [⟨7, "u1", 200, "a", .PENDING⟩],
   [⟨7, "p1", 2, 100⟩], 8, 1⟩

/-- A lone CANCELLED order. -/
def dbCancelled : DB :=
  ⟨[], [], [⟨1, "u1", 100, "a", .CANCELLED⟩], [], 2, 1⟩

/-- An empty-cart user state. -/
def dbEmptyCart : DB := ⟨[⟨"p1", 100, 5, "P", true⟩], [], [], [], 1, 1⟩

/-- A PAID order of 4 units of a product whose stock is 10. -/
def dbC6 : DB :=
  ⟨[⟨"q1", 100, 10, "Q", true⟩], [], [⟨9, "u2", 400, "a", .PAID⟩],
   [⟨9, "q1", 4, 100⟩], 10, 1⟩

end Shop

namespace Shop

/-! ## Basic lemmas about lookups and updates -/

/-- Mapping a function that does not change the tested key commutes with
first-row lookup. -/
theorem find?_map_pred {α : Type} (g : α → α) (q : α → Bool) (l : List α)
    (h : ∀ a, q (g a) = q a) :
    (l.map g).find? q = (l.find? q).map g := by
  induction l with
  | nil => rfl
  | cons a t ih =>
    simp only [List.map_cons]
    cases hq : q a with
    | false =>
      rw [List.find?_cons_of_neg, List.find?_cons_of_neg]
      · exact ih
      · simp [hq]
      · simp [h a, hq]
    | true =>
      rw [List.find?_cons_of_pos, List.find?_cons_of_pos]
      · rfl
      · exact hq
      · rw [h a]; exact hq

theorem findProduct_id {db : DB} {pid : String} {p : Product}
    (h : findProduct db pid = some p) : p.id = pid := by
  have := List.find?_some h
  simpa using this

theorem findOrder_id {db : DB} {oid : Nat} {o : Order}
    (h : findOrder db oid = some o) : o.id = oid := by
  have := List.find?_some h
  simpa using this

theorem findProduct_setStock (db : DB) (pid : String) (v : Int) (pid' : String) :
    findProduct (setProductStock db pid v) pid' =
      (findProduct db pid').map
        (fun p => if p.id == pid then { p with stock := v } else p) := by
  unfold findProduct setProductStock
  exact find?_map_pred _ _ _ (fun p => by by_cases h : p.id == pid <;> simp [h])

theorem getStock_setStock (db : DB) (pid : String) (v : Int) (pid' : String) :
    getStock (setProductStock db pid v) pid' =
      (getStock db pid').map (fun s => if pid' = pid then v else s) := by
  unfold getStock
  rw [findProduct_setStock]
  cases h : findProduct db pid' with
  | none => rfl
  | some p =>
    have hid : p.id = pid' := findProduct_id h
    by_cases hpp : pid' = pid
    · simp [Option.map_map, Function.comp, hid, hpp]
    · simp [Option.map_map, Function.comp, hid, hpp]

theorem getStock_eq_of_products_eq {db db' : DB} (h : db'.products = db.products)
    (pid : String) : getStock db' pid = getStock db pid := by
  unfold getStock findProduct
  rw [h]

/-! ## The stock-restore loop of cancelOrder -/

theorem restoreStock_products_aux (db : DB) (its : List OrderItem) :
    (restoreStock db its).cartItems = db.cartItems ∧
    (restoreStock db its).orders = db.orders ∧
    (restoreStock db its).orderItems = db.orderItems := by
  induction its generalizing db with
  | nil => exact ⟨rfl, rfl, rfl⟩
  | cons it rest ih =>
    unfold restoreStock
    cases h : findProduct db it.productId with
    | none => exact ih db
    | some p =>
      have := ih (setProductStock db it.productId (p.stock + it.quantity))
      simpa [setProductStock] using this

theorem getStock_restoreStock (its : List OrderItem) (db : DB) (pid : String) :
    getStock (restoreStock db its) pid =
      (getStock db pid).map (fun s => s + restockQty pid its) := by
  induction its generalizing db with
  | nil =>
    cases h : getStock db pid <;> simp [restoreStock, restockQty, h]
  | cons it rest ih =>
    unfold restoreStock
    cases hf : findProduct db it.productId with
    | none =>
      rw [ih]
      by_cases hpid : it.productId = pid
      · have hnone : getStock db pid = none := by
          rw [← hpid]; simp [getStock, hf]
        simp [hnone]
      · cases h : getStock db pid <;> simp [restockQty, hpid, h]
    | some p =>
      rw [ih, getStock_setStock]
      by_cases hpid : pid = it.productId
      · have hs : getStock db pid = some p.stock := by
          rw [hpid]; simp [getStock, hf]
        rw [hs]
        simp only [Option.map_some', Option.some.injEq, restockQty, hpid,
          eq_self_iff_true, if_true]
        omega
      · have hpid' : ¬ it.productId = pid := fun h => hpid h.symm
        cases h : getStock db pid <;> simp [restockQty, hpid, hpid', h]

/-! ## The stock-update loop of createOrder -/

theorem applyStock_fields (joined : List (CartItem × Product))
    (sts : List StagedItem) (db : DB) :
    (applyStockUpdates joined db sts).cartItems = db.cartItems ∧
    (applyStockUpdates joined db sts).orders = db.orders ∧
    (applyStockUpdates joined db sts).orderItems = db.orderItems ∧
    (applyStockUpdates joined db sts).nextOrderId = db.nextOrderId := by
  induction sts generalizing db with
  | nil => exact ⟨rfl, rfl, rfl, rfl⟩
  | cons it rest ih =>
    unfold applyStockUpdates
    cases h : snapProduct joined it.productId with
    | none => exact ih db
    | some p =>
      have := ih (setProductStock db it.productId (p.stock - it.quantity))
      simpa [setProductStock] using this

theorem getStock_applyStock_notmem (joined : List (CartItem × Product))
    {sts : List StagedItem} {pid : String}
    (h : ∀ it ∈ sts, it.productId ≠ pid) (db : DB) :
    getStock (applyStockUpdates joined db sts) pid = getStock db pid := by
  induction sts generalizing db with
  | nil => rfl
  | cons it rest ih =>
    unfold applyStockUpdates
    have hne : it.productId ≠ pid := h it (List.mem_cons_self it rest)
    have hrest : ∀ a ∈ rest, a.productId ≠ pid :=
      fun a ha => h a (List.mem_cons_of_mem it ha)
    cases hs : snapProduct joined it.productId with
    | none => exact ih hrest db
    | some p =>
      rw [ih hrest, getStock_setStock]
      have : ¬ pid = it.productId := fun hp => hne hp.symm
      cases hg : getStock db pid <;> simp [this, hg]

theorem getStock_applyStock_mem (joined : List (CartItem × Product))
    {sts : List StagedItem} {it : StagedItem} {p : Product}
    (hnodup : (sts.map StagedItem.productId).Nodup)
    (hit : it ∈ sts)
    (hsnap : snapProduct joined it.productId = some p) (db : DB) :
    getStock (applyStockUpdates joined db sts) it.productId =
      (getStock db it.productId).map (fun _ => p.stock - it.quantity) := by
  induction sts generalizing db with
  | nil => cases hit
  | cons a rest ih =>
    have hnodup' : (rest.map StagedItem.productId).Nodup :=
      (List.nodup_cons.mp hnodup).2
    have hnotin : a.productId ∉ rest.map StagedItem.productId :=
      (List.nodup_cons.mp hnodup).1
    rcases List.mem_cons.mp hit with rfl | hmem
    · unfold applyStockUpdates
      rw [hsnap]
      have hrest : ∀ b ∈ rest, b.productId ≠ it.productId := by
        intro b hb hbe
        exact hnotin (hbe ▸ List.mem_map_of_mem StagedItem.productId hb)
      rw [getStock_applyStock_notmem joined hrest, getStock_setStock]
      cases hg : getStock db it.productId <;> simp [hg]
    · unfold applyStockUpdates
      have hne : a.productId ≠ it.productId := by
        intro hbe
        exact hnotin (hbe ▸ List.mem_map_of_mem StagedItem.productId hmem)
      cases hs : snapProduct joined a.productId with
      | none => exact ih hnodup' hmem db
      | some q =>
        rw [ih hnodup' hmem, getStock_setStock]
        have : ¬ it.productId = a.productId := fun hp => hne hp.symm
        cases hg : getStock db it.productId <;> simp [this, hg]

/-! ## The validation loop of createOrder -/

/-- Relation between a cart line and the staged order line built from it. -/
def StagedOf (db : DB) (c : CartItem) (st : StagedItem) : Prop :=
  ∃ p, findProduct db c.productId = some p ∧ st = ⟨p.id, c.quantity, p.price⟩

/-- Relation between a cart line and its joined `(cartItem, product)` pair. -/
def JoinedOf (db : DB) (c : CartItem) (cp : CartItem × Product) : Prop :=
  cp.1 = c ∧ findProduct db c.productId = some cp.2

theorem validateCart_ok_spec (db : DB) (cs : List CartItem)
    (h : ∀ c ∈ cs, ∃ p, findProduct db c.productId = some p ∧ ¬ p.stock < c.quantity) :
    ∃ staged joined,
      validateCart db cs = .ok (cartTotalPrice db cs, staged, joined) ∧
      List.Forall₂ (StagedOf db) cs staged ∧
      List.Forall₂ (JoinedOf db) cs joined := by
  induction cs with
  | nil => exact ⟨[], [], rfl, List.Forall₂.nil, List.Forall₂.nil⟩
  | cons c rest ih =>
    obtain ⟨p, hp, hs⟩ := h c (List.mem_cons_self c rest)
    obtain ⟨staged, joined, hok, hst, hj⟩ :=
      ih (fun c' hc' => h c' (List.mem_cons_of_mem c hc'))
    refine ⟨⟨p.id, c.quantity, p.price⟩ :: staged, (c, p) :: joined, ?_, ?_, ?_⟩
    · unfold validateCart
      rw [hp]
      dsimp only
      rw [if_neg hs, hok]
      simp [cartTotalPrice, hp]
    · exact List.Forall₂.cons ⟨p, hp, rfl⟩ hst
    · exact List.Forall₂.cons ⟨rfl, hp⟩ hj

theorem validateCart_insufficient (db : DB) (cs : List CartItem)
    (hall : ∀ c ∈ cs, ∃ p, findProduct db c.productId = some p)
    (hbad : ∃ c ∈ cs, ∃ p, findProduct db c.productId = some p ∧ p.stock < c.quantity) :
    ∃ c ∈ cs, ∃ p, findProduct db c.productId = some p ∧ p.stock < c.quantity ∧
      validateCart db cs = .error (.insufficientStockFor p.name) := by
  induction cs with
  | nil => obtain ⟨c, hc, -⟩ := hbad; cases hc
  | cons c rest ih =>
    obtain ⟨p, hp⟩ := hall c (List.mem_cons_self c rest)
    by_cases hb : p.stock < c.quantity
    · refine ⟨c, List.mem_cons_self c rest, p, hp, hb, ?_⟩
      unfold validateCart
      rw [hp]
      dsimp only
      rw [if_pos hb]
    · have hbad' : ∃ c' ∈ rest, ∃ p',
          findProduct db c'.productId = some p' ∧ p'.stock < c'.quantity := by
        obtain ⟨c', hc', p', hp', hb'⟩ := hbad
        rcases List.mem_cons.mp hc' with rfl | hmem
        · rw [hp] at hp'
          cases hp'
          exact absurd hb' hb
        · exact ⟨c', hmem, p', hp', hb'⟩
      obtain ⟨c', hc', p', hp', hb', herr⟩ :=
        ih (fun a ha => hall a (List.mem_cons_of_mem c ha)) hbad'
      refine ⟨c', List.mem_cons_of_mem c hc', p', hp', hb', ?_⟩
      unfold validateCart
      rw [hp]
      dsimp only
      rw [if_neg hb, herr]

/-! ## Small facts about Forall₂ used to align cart lines with staged lines -/

theorem forall₂_mem_left {α β : Type} {R : α → β → Prop} {l₁ : List α} {l₂ : List β}
    (h : List.Forall₂ R l₁ l₂) {a : α} (ha : a ∈ l₁) : ∃ b ∈ l₂, R a b := by
  induction h with
  | nil => cases ha
  | cons hR _ ih =>
    rcases List.mem_cons.mp ha with rfl | hmem
    · exact ⟨_, List.mem_cons_self _ _, hR⟩
    · obtain ⟨b, hb, hRb⟩ := ih hmem
      exact ⟨b, List.mem_cons_of_mem _ hb, hRb⟩

theorem staged_map_productId {db : DB} {cs : List CartItem} {staged : List StagedItem}
    (h : List.Forall₂ (StagedOf db) cs staged) :
    staged.map StagedItem.productId = cs.map CartItem.productId := by
  induction h with
  | nil => rfl
  | cons hR _ ih =>
    obtain ⟨p, hp, rfl⟩ := hR
    simp [ih, findProduct_id hp]

theorem snapProduct_of_joined {db : DB} {cs : List CartItem}
    {joined : List (CartItem × Product)}
    (hj : List.Forall₂ (JoinedOf db) cs joined)
    {pid : String} (hc : ∃ c ∈ cs, c.productId = pid) :
    snapProduct joined pid = findProduct db pid := by
  induction hj with
  | nil => obtain ⟨c, hc', -⟩ := hc; cases hc'
  | @cons c cp cs' joined' hR hrest ih =>
    obtain ⟨hcp1, hcp2⟩ := hR
    have hid : cp.2.id = c.productId := findProduct_id hcp2
    by_cases h : c.productId = pid
    · rw [← h]
      unfold snapProduct
      rw [List.find?_cons_of_pos]
      · simpa using hcp2.symm
      · simp [hid]
    · have hc' : ∃ a ∈ cs', a.productId = pid := by
        obtain ⟨a, ha, hap⟩ := hc
        rcases List.mem_cons.mp ha with rfl | hmem
        · exact absurd hap h
        · exact ⟨a, hmem, hap⟩
      unfold snapProduct
      rw [List.find?_cons_of_neg]
      · exact ih hc'
      · simp [hid, h]

theorem isEmpty_false_of_ne_nil {α : Type} {l : List α} (h : l ≠ []) :
    l.isEmpty = false := by
  cases l with
  | nil => exact absurd rfl h
  | cons a t => rfl

theorem findOrder_setStatus (db : DB) (L : List Order) (oid : Nat)
    (st : OrderStatus) (oid' : Nat) :
    ({ db with orders := L.map (fun o => if o.id == oid then { o with status := st } else o) } : DB).orders.find? (fun o => o.id == oid') =
      (L.find? (fun o => o.id == oid')).map
        (fun o => if o.id == oid then { o with status := st } else o) := by
  exact find?_map_pred _ _ _ (fun o => by by_cases h : o.id == oid <;> simp [h])

/-- Shape of a successful `cancelOrder` run: status PENDING/PAID, owner match.
Shared by the theorems for the cancellation claims. -/
theorem cancelOrder_ok_spec (db : DB) (uid : String) (oid : Nat) (o : Order)
    (hord : findOrder db oid = some o)
    (hown : o.userId = uid)
    (hst : o.status = .PENDING ∨ o.status = .PAID) :
    (cancelOrder uid oid db).2 = .ok { o with status := .CANCELLED } ∧
    findOrder (cancelOrder uid oid db).1 oid = some { o with status := .CANCELLED } ∧
    (∀ pid s, getStock db pid = some s →
        getStock (cancelOrder uid oid db).1 pid =
          some (s + restockQty pid (db.orderItems.filter (fun it => it.orderId == oid)))) ∧
    (cancelOrder uid oid db).1.cartItems = db.cartItems ∧
    (cancelOrder uid oid db).1.orderItems = db.orderItems := by
  have hguard : ¬(o.status = .SHIPPED ∨ o.status = .DELIVERED ∨ o.status = .CANCELLED) := by
    rcases hst with h | h <;> rw [h] <;> rintro (h' | h' | h') <;> cases h'
  have hcc : cancelOrder uid oid db =
      (⟨(restoreStock db (db.orderItems.filter (fun it => it.orderId == oid))).products,
        (restoreStock db (db.orderItems.filter (fun it => it.orderId == oid))).cartItems,
        (restoreStock db (db.orderItems.filter (fun it => it.orderId == oid))).orders.map
          (fun o => if o.id == oid then { o with status := .CANCELLED } else o),
        (restoreStock db (db.orderItems.filter (fun it => it.orderId == oid))).orderItems,
        (restoreStock db (db.orderItems.filter (fun it => it.orderId == oid))).nextOrderId,
        (restoreStock db (db.orderItems.filter (fun it => it.orderId == oid))).nextCartItemId⟩,
       .ok { o with status := .CANCELLED }) := by
    unfold cancelOrder
    rw [hord]
    dsimp only
    rw [if_neg (fun h => h hown), if_neg hguard]
  obtain ⟨hcart, hords, hitems⟩ :=
    restoreStock_products_aux db (db.orderItems.filter (fun it => it.orderId == oid))
  refine ⟨by rw [hcc], ?_, ?_, ?_, ?_⟩
  · rw [hcc]
    unfold findOrder
    dsimp only
    rw [hords]
    rw [find?_map_pred _ _ _ (fun a => by by_cases h : a.id == oid <;> simp [h])]
    rw [show db.orders.find? (fun a => a.id == oid) = some o from hord]
    have hid := findOrder_id hord
    simp [hid]
  · intro pid s hs
    rw [hcc]
    have hp : getStock
        (⟨(restoreStock db (db.orderItems.filter (fun it => it.orderId == oid))).products,
          (restoreStock db (db.orderItems.filter (fun it => it.orderId == oid))).cartItems,
          (restoreStock db (db.orderItems.filter (fun it => it.orderId == oid))).orders.map
            (fun o => if o.id == oid then { o with status := .CANCELLED } else o),
          (restoreStock db (db.orderItems.filter (fun it => it.orderId == oid))).orderItems,
          (restoreStock db (db.orderItems.filter (fun it => it.orderId == oid))).nextOrderId,
          (restoreStock db (db.orderItems.filter (fun it => it.orderId == oid))).nextCartItemId⟩ : DB) pid =
        getStock (restoreStock db (db.orderItems.filter (fun it => it.orderId == oid))) pid :=
      getStock_eq_of_products_eq rfl pid
    rw [hp, getStock_restoreStock, hs]
    rfl
  · rw [hcc]
    exact hcart
  · rw [hcc]
    exact hitems

/-! ## Claim theorems -/

/-- C9: a user with an empty cart gets the cart-empty error from createOrder
and nothing is created or mutated (the returned state is the input state). -/
theorem createOrder_emptyCart (fail : Bool) (uid addr : String) (db : DB)
    (h : userCart db uid = []) :
    createOrder fail uid addr db = (db, .error .cartEmpty) := by
  simp [createOrder, h]

theorem createOrder_emptyCart_witness :
    createOrder false "u1" "a" dbEmptyCart = (dbEmptyCart, .error .cartEmpty) :=
  createOrder_emptyCart false "u1" "a" dbEmptyCart rfl

/-- C4: cancelOrder rejects with not-found when the order is missing, with
forbidden when the requester is not the owner (regardless of status), and with
invalid-state when the status is SHIPPED, DELIVERED or CANCELLED; in each case
the returned state is exactly the input state (no order, item or product
mutation). -/
theorem cancelOrder_rejects :
    (∀ db uid oid, findOrder db oid = none →
        cancelOrder uid oid db = (db, .error .orderNotFound)) ∧
    (∀ db uid oid o, findOrder db oid = some o → o.userId ≠ uid →
        cancelOrder uid oid db = (db, .error .notAuthorizedCancel)) ∧
    (∀ db uid oid o, findOrder db oid = some o → o.userId = uid →
        (o.status = .SHIPPED ∨ o.status = .DELIVERED ∨ o.status = .CANCELLED) →
        cancelOrder uid oid db = (db, .error (.cannotCancelStatus o.status))) := by
  refine ⟨?_, ?_, ?_⟩
  · intro db uid oid h
    unfold cancelOrder
    rw [h]
  · intro db uid oid o h hne
    unfold cancelOrder
    rw [h]
    dsimp only
    rw [if_pos hne]
  · intro db uid oid o h hown hst
    unfold cancelOrder
    rw [h]
    dsimp only
    rw [if_neg (fun hne => hne hown), if_pos hst]

theorem cancelOrder_rejects_witness :
    cancelOrder "u2" 7 dbC = (dbC, .error .notAuthorizedCancel) :=
  cancelOrder_rejects.2.1 dbC "u2" 7 ⟨7, "u1", 200, "a", .PENDING⟩ rfl (by decide)

/-- C2: if every cart line's product exists and some line requests more than
the current stock, createOrder fails with the insufficient-stock error naming
an offending product, and the returned state is exactly the input state
(no order, order item, stock or cart mutation). -/
theorem createOrder_insufficient (fail : Bool) (uid addr : String) (db : DB)
    (hall : ∀ c ∈ userCart db uid, ∃ p, findProduct db c.productId = some p)
    (hbad : ∃ c ∈ userCart db uid, ∃ p,
        findProduct db c.productId = some p ∧ p.stock < c.quantity) :
    ∃ c ∈ userCart db uid, ∃ p, findProduct db c.productId = some p ∧
      p.stock < c.quantity ∧
      createOrder fail uid addr db = (db, .error (.insufficientStockFor p.name)) := by
  obtain ⟨c, hc, p, hp, hb, herr⟩ := validateCart_insufficient db _ hall hbad
  refine ⟨c, hc, p, hp, hb, ?_⟩
  have hne : (userCart db uid).isEmpty = false :=
    isEmpty_false_of_ne_nil (fun h => by rw [h] at hc; cases hc)
  simp [createOrder, hne, herr]

theorem createOrder_insufficient_witness :
    ∃ c ∈ userCart dbB "u1", ∃ p, findProduct dbB c.productId = some p ∧
      p.stock < c.quantity ∧
      createOrder false "u1" "a" dbB = (dbB, .error (.insufficientStockFor p.name)) :=
  createOrder_insufficient false "u1" "a" dbB
    (by
      intro c hc
      have hcc : c = ⟨1, "u1", "p1", 5⟩ := by simpa [userCart, dbB] using hc
      subst hcc
      exact ⟨⟨"p1", 100, 1, "P", true⟩, rfl⟩)
    ⟨⟨1, "u1", "p1", 5⟩, by simp [userCart, dbB], ⟨"p1", 100, 1, "P", true⟩, rfl, by decide⟩

/-- C3: cancelling an owned PENDING or PAID order succeeds, sets the status to
CANCELLED, and adds back, for every product, the total quantity the order's
items hold of it (so each item's quantity is restored to its product's stock);
cart lines and order items are untouched. -/
theorem cancelOrder_success (db : DB) (uid : String) (oid : Nat) (o : Order)
    (hord : findOrder db oid = some o)
    (hown : o.userId = uid)
    (hst : o.status = .PENDING ∨ o.status = .PAID) :
    (cancelOrder uid oid db).2 = .ok { o with status := .CANCELLED } ∧
    findOrder (cancelOrder uid oid db).1 oid = some { o with status := .CANCELLED } ∧
    (∀ pid s, getStock db pid = some s →
        getStock (cancelOrder uid oid db).1 pid =
          some (s + restockQty pid (db.orderItems.filter (fun it => it.orderId == oid)))) ∧
    (cancelOrder uid oid db).1.cartItems = db.cartItems ∧
    (cancelOrder uid oid db).1.orderItems = db.orderItems :=
  cancelOrder_ok_spec db uid oid o hord hown hst

theorem cancelOrder_success_witness :
    (cancelOrder "u1" 7 dbC).2 = .ok ⟨7, "u1", 200, "a", .CANCELLED⟩ ∧
    getStock (cancelOrder "u1" 7 dbC).1 "p1" = some 5 := by
  have h := cancelOrder_success dbC "u1" 7 ⟨7, "u1", 200, "a", .PENDING⟩ rfl rfl (Or.inl rfl)
  refine ⟨h.1, ?_⟩
  have h3 := h.2.2.1 "p1" 3 rfl
  rw [h3]
  decide

/-- C5 (corrected): the status discipline holds for the user-facing
operations only.  A successful cancelOrder always starts from PENDING or PAID
and ends CANCELLED; an order already CANCELLED is never changed by
cancelOrder; and createOrder never touches a pre-existing order (given fresh
order ids).  The privileged updateOrderStatus enforces no transition graph
(see the counterexample), so the claim does not hold over every exposed
operation. -/
theorem orderStatus_lifecycle :
    (∀ db uid oid db' o', cancelOrder uid oid db = (db', Except.ok o') →
        ∃ o, findOrder db oid = some o ∧ (o.status = .PENDING ∨ o.status = .PAID) ∧
          o' = { o with status := .CANCELLED } ∧
          findOrder db' oid = some { o with status := .CANCELLED }) ∧
    (∀ db uid oid o, findOrder db oid = some o → o.status = .CANCELLED →
        (cancelOrder uid oid db).1 = db ∧
        (∃ e, (cancelOrder uid oid db).2 = .error e)) ∧
    (∀ fail uid addr db, (∀ o ∈ db.orders, o.id ≠ db.nextOrderId) →
        ∀ o ∈ db.orders, o ∈ (createOrder fail uid addr db).1.orders) := by
  refine ⟨?_, ?_, ?_⟩
  · intro db uid oid db' o' h
    cases hord : findOrder db oid with
    | none =>
      have hcc : cancelOrder uid oid db = (db, .error .orderNotFound) := by
        unfold cancelOrder; rw [hord]
      rw [hcc] at h
      simp at h
    | some o =>
      by_cases hown : o.userId = uid
      · by_cases hg : o.status = .SHIPPED ∨ o.status = .DELIVERED ∨ o.status = .CANCELLED
        · have hcc : cancelOrder uid oid db = (db, .error (.cannotCancelStatus o.status)) := by
            unfold cancelOrder; rw [hord]; dsimp only
            rw [if_neg (fun hne => hne hown), if_pos hg]
          rw [hcc] at h
          simp at h
        · have hpp : o.status = .PENDING ∨ o.status = .PAID := by
            cases ho : o.status
            case PENDING => exact Or.inl rfl
            case PAID => exact Or.inr rfl
            case SHIPPED => rw [ho] at hg; exact absurd (Or.inl rfl) hg
            case DELIVERED => rw [ho] at hg; exact absurd (Or.inr (Or.inl rfl)) hg
            case CANCELLED => rw [ho] at hg; exact absurd (Or.inr (Or.inr rfl)) hg
          obtain ⟨hok2, hfind, -, -, -⟩ := cancelOrder_ok_spec db uid oid o hord hown hpp
          have h1 : (cancelOrder uid oid db).1 = db' := by rw [h]
          have h2 : (cancelOrder uid oid db).2 = .ok o' := by rw [h]
          rw [hok2] at h2
          refine ⟨o, rfl, hpp, (Except.ok.inj h2).symm, ?_⟩
          rw [← h1]
          exact hfind
      · have hcc : cancelOrder uid oid db = (db, .error .notAuthorizedCancel) := by
          unfold cancelOrder; rw [hord]; dsimp only
          rw [if_pos hown]
        rw [hcc] at h
        simp at h
  · intro db uid oid o hord hst
    by_cases hown : o.userId = uid
    · have hcc : cancelOrder uid oid db = (db, .error (.cannotCancelStatus o.status)) := by
        unfold cancelOrder; rw [hord]; dsimp only
        rw [if_neg (fun hne => hne hown), if_pos (Or.inr (Or.inr hst))]
      rw [hcc]
      exact ⟨rfl, ⟨_, rfl⟩⟩
    · have hcc : cancelOrder uid oid db = (db, .error .notAuthorizedCancel) := by
        unfold cancelOrder; rw [hord]; dsimp only
        rw [if_pos hown]
      rw [hcc]
      exact ⟨rfl, ⟨_, rfl⟩⟩
  · intro fail uid addr db hfresh o ho
    by_cases hc : userCart db uid = []
    · have hcc : createOrder fail uid addr db = (db, .error .cartEmpty) := by
        simp [createOrder, hc]
      rw [hcc]
      exact ho
    · have hne := isEmpty_false_of_ne_nil hc
      cases hv : validateCart db (userCart db uid) with
      | error e =>
        have hcc : createOrder fail uid addr db = (db, .error e) := by
          simp [createOrder, hne, hv]
        rw [hcc]
        exact ho
      | ok tsj =>
        obtain ⟨t, staged, joined⟩ := tsj
        cases fail with
        | true =>
          have hcc : (createOrder true uid addr db).1.orders =
              (db.orders ++ [(⟨db.nextOrderId, uid, t, addr, .PENDING⟩ : Order)]).filter
                (fun a => !(a.id == db.nextOrderId)) := by
            simp [createOrder, hne, hv]
          rw [hcc]
          refine List.mem_filter.mpr ⟨List.mem_append_left _ ho, ?_⟩
          simp [hfresh o ho]
        | false =>
          have hcc : (createOrder false uid addr db).1.orders =
              db.orders ++ [(⟨db.nextOrderId, uid, t, addr, .PENDING⟩ : Order)] := by
            simp [createOrder, hne, hv]
            rw [(applyStock_fields joined staged _).2.1]
          rw [hcc]
          exact List.mem_append_left _ ho

theorem orderStatus_lifecycle_witness :
    (cancelOrder "u1" 1 dbCancelled).1 = dbCancelled ∧
    (∃ e, (cancelOrder "u1" 1 dbCancelled).2 = .error e) :=
  orderStatus_lifecycle.2.1 dbCancelled "u1" 1 ⟨1, "u1", 100, "a", .CANCELLED⟩ rfl rfl

theorem orderStatus_counterexample :
    (findOrder dbCancelled 1).map Order.status = some .CANCELLED ∧
    (updateOrderStatus 1 .PENDING dbCancelled).2 = .ok ⟨1, "u1", 100, "a", .PENDING⟩ ∧
    (findOrder (updateOrderStatus 1 .PENDING dbCancelled).1 1).map Order.status =
      some .PENDING :=
  ⟨rfl, rfl, rfl⟩

/-- C6 (corrected): only cancelOrder reverses the stock decrements.  The
privileged updateOrderStatus leaves products (hence all stock), order items
and cart lines untouched for every status it writes, including CANCELLED;
a successful cancelOrder adds each item's quantity back to its product. -/
theorem updateStatus_no_restock :
    (∀ db oid st, (updateOrderStatus oid st db).1.products = db.products ∧
        (updateOrderStatus oid st db).1.orderItems = db.orderItems ∧
        (updateOrderStatus oid st db).1.cartItems = db.cartItems) ∧
    (∀ db uid oid o, findOrder db oid = some o → o.userId = uid →
        (o.status = .PENDING ∨ o.status = .PAID) →
        ∀ pid s, getStock db pid = some s →
          getStock (cancelOrder uid oid db).1 pid =
            some (s + restockQty pid (db.orderItems.filter (fun it => it.orderId == oid)))) := by
  refine ⟨?_, ?_⟩
  · intro db oid st
    unfold updateOrderStatus
    cases h : findOrder db oid <;> simp
  · intro db uid oid o hord hown hst pid s hs
    exact (cancelOrder_ok_spec db uid oid o hord hown hst).2.2.1 pid s hs

theorem updateStatus_no_restock_witness :
    getStock (cancelOrder "u2" 9 dbC6).1 "q1" = some 14 := by
  have h := updateStatus_no_restock.2 dbC6 "u2" 9 ⟨9, "u2", 400, "a", .PAID⟩
    rfl rfl (Or.inr rfl) "q1" 10 rfl
  rw [h]
  decide

theorem updateStatus_counterexample :
    getStock dbC6 "q1" = some 10 ∧
    restockQty "q1" (dbC6.orderItems.filter (fun it => it.orderId == 9)) = 4 ∧
    (updateOrderStatus 9 .CANCELLED dbC6).2 = .ok ⟨9, "u2", 400, "a", .CANCELLED⟩ ∧
    getStock (updateOrderStatus 9 .CANCELLED dbC6).1 "q1" = some 10 :=
  ⟨rfl, rfl, rfl, rfl⟩

/-! ## Shape of the createOrder runs (shared by the remaining claims) -/

theorem createOrder_ok_eq (db : DB) (uid addr : String) (t : Int)
    (staged : List StagedItem) (joined : List (CartItem × Product))
    (hne : (userCart db uid).isEmpty = false)
    (hok : validateCart db (userCart db uid) = .ok (t, staged, joined)) :
    createOrder false uid addr db =
      (⟨(applyStockUpdates joined (orderInsertState db uid addr t staged) staged).products,
        (applyStockUpdates joined (orderInsertState db uid addr t staged) staged).cartItems.filter
          (fun c => !(c.userId == uid)),
        (applyStockUpdates joined (orderInsertState db uid addr t staged) staged).orders,
        (applyStockUpdates joined (orderInsertState db uid addr t staged) staged).orderItems,
        (applyStockUpdates joined (orderInsertState db uid addr t staged) staged).nextOrderId,
        (applyStockUpdates joined (orderInsertState db uid addr t staged) staged).nextCartItemId⟩,
       .ok ⟨db.nextOrderId, uid, t, addr, .PENDING⟩) := by
  unfold createOrder
  dsimp only
  rw [hne, hok]
  rfl

theorem createOrder_fail_eq (db : DB) (uid addr : String) (t : Int)
    (staged : List StagedItem) (joined : List (CartItem × Product))
    (hne : (userCart db uid).isEmpty = false)
    (hok : validateCart db (userCart db uid) = .ok (t, staged, joined)) :
    createOrder true uid addr db =
      (⟨db.products, db.cartItems,
        (db.orders ++ [(⟨db.nextOrderId, uid, t, addr, .PENDING⟩ : Order)]).filter
          (fun a => !(a.id == db.nextOrderId)),
        db.orderItems, db.nextOrderId + 1, db.nextCartItemId⟩,
       .error .failedCreateOrderItems) := by
  unfold createOrder
  dsimp only
  rw [hne, hok]
  rfl

/-- C10: when a cart line for the requested `(user, product)` pair exists,
addToCart updates that line in place (same number of lines, the line's
quantity becomes old + requested), but only when the combined quantity fits
the current stock — otherwise it rejects and leaves the whole state untouched;
and addToCart always preserves the at-most-one-line-per-(user, product)
invariant. -/
theorem addToCart_existing (db : DB) (uid pid : String) (qty : Int)
    (p : Product) (ex : CartItem)
    (hp : findProduct db pid = some p)
    (hact : p.isActive = true)
    (hq : ¬ p.stock < qty)
    (hex : db.cartItems.find? (fun c => c.userId == uid && c.productId == pid) = some ex) :
    (p.stock < ex.quantity + qty →
        addToCart uid pid qty db = (db, .error .insufficientStockRequested)) ∧
    (¬ p.stock < ex.quantity + qty →
        (addToCart uid pid qty db).2 = .ok { ex with quantity := ex.quantity + qty } ∧
        (addToCart uid pid qty db).1.cartItems =
          db.cartItems.map
            (fun c => if c.id == ex.id then { c with quantity := ex.quantity + qty } else c) ∧
        (addToCart uid pid qty db).1.cartItems.length = db.cartItems.length ∧
        ex.quantity + qty ≤ p.stock) ∧
    (∀ db0 : DB, ∀ uid0 pid0 : String, ∀ qty0 : Int,
        CartUnique db0 → CartUnique (addToCart uid0 pid0 qty0 db0).1) := by
  have hbase : addToCart uid pid qty db =
      (if p.stock < ex.quantity + qty then (db, .error .insufficientStockRequested)
       else
        ({ db with
           cartItems := db.cartItems.map
             (fun c => if c.id == ex.id then { c with quantity := ex.quantity + qty } else c) },
         .ok { ex with quantity := ex.quantity + qty })) := by
    unfold addToCart
    rw [hp]
    dsimp only
    rw [if_neg (show ¬ ((!p.isActive) = true) by simp [hact]), if_neg hq, hex]
  refine ⟨?_, ?_, ?_⟩
  · intro hlt
    rw [hbase, if_pos hlt]
  · intro hge
    rw [hbase, if_neg hge]
    exact ⟨rfl, rfl, (List.length_map _ _).symm ▸ rfl, not_lt.mp hge⟩
  · intro db0 uid0 pid0 qty0 hU
    unfold addToCart
    cases hp0 : findProduct db0 pid0 with
    | none => exact hU
    | some pr =>
      dsimp only
      cases ha : pr.isActive with
      | false => exact hU
      | true =>
        rw [if_neg (by decide : ¬ ((!true) = true))]
        by_cases hs : pr.stock < qty0
        · rw [if_pos hs]; exact hU
        · rw [if_neg hs]
          cases hfind : db0.cartItems.find? (fun c => c.userId == uid0 && c.productId == pid0) with
          | some ex0 =>
            dsimp only
            by_cases hs2 : pr.stock < ex0.quantity + qty0
            · rw [if_pos hs2]; exact hU
            · rw [if_neg hs2]
              intro c1 h1 c2 h2 hu hpids
              obtain ⟨a1, ha1, rfl⟩ := List.mem_map.mp h1
              obtain ⟨a2, ha2, rfl⟩ := List.mem_map.mp h2
              have hu1 : a1.userId = a2.userId := by
                by_cases e1 : a1.id == ex0.id <;> by_cases e2 : a2.id == ex0.id <;>
                  simpa [e1, e2] using hu
              have hp1 : a1.productId = a2.productId := by
                by_cases e1 : a1.id == ex0.id <;> by_cases e2 : a2.id == ex0.id <;>
                  simpa [e1, e2] using hpids
              have : a1 = a2 := hU a1 ha1 a2 ha2 hu1 hp1
              rw [this]
          | none =>
            dsimp only
            intro c1 h1 c2 h2 hu hpids
            have hnone := List.find?_eq_none.mp hfind
            rcases List.mem_append.mp h1 with m1 | m1 <;>
              rcases List.mem_append.mp h2 with m2 | m2
            · exact hU c1 m1 c2 m2 hu hpids
            · exfalso
              have hc2 : c2 = ⟨db0.nextCartItemId, uid0, pid0, qty0⟩ := by
                simpa using m2
              apply hnone c1 m1
              rw [hc2] at hu hpids
              simp [hu, hpids]
            · exfalso
              have hc1 : c1 = ⟨db0.nextCartItemId, uid0, pid0, qty0⟩ := by
                simpa using m1
              apply hnone c2 m2
              rw [hc1] at hu hpids
              simp [← hu, ← hpids]
            · have hc1 : c1 = ⟨db0.nextCartItemId, uid0, pid0, qty0⟩ := by
                simpa using m1
              have hc2 : c2 = ⟨db0.nextCartItemId, uid0, pid0, qty0⟩ := by
                simpa using m2
              rw [hc1, hc2]

theorem itemsTotal_staged {db : DB} {cs : List CartItem} {staged : List StagedItem}
    (h : List.Forall₂ (StagedOf db) cs staged) (oid : Nat) :
    itemsTotal (staged.map (fun it => OrderItem.mk oid it.productId it.quantity it.unitPrice)) =
      cartTotalPrice db cs := by
  induction h with
  | nil => rfl
  | cons hR hrest ih =>
    obtain ⟨p, hp, rfl⟩ := hR
    simp [itemsTotal, cartTotalPrice, hp, ih]

theorem forall₂_staged_items {db : DB} {cs : List CartItem} {staged : List StagedItem}
    (h : List.Forall₂ (StagedOf db) cs staged) (oid : Nat) :
    List.Forall₂
      (fun (c : CartItem) (it : OrderItem) =>
        it.orderId = oid ∧ it.productId = c.productId ∧ it.quantity = c.quantity ∧
        ∃ p, findProduct db c.productId = some p ∧ it.unitPrice = p.price)
      cs (staged.map (fun it => OrderItem.mk oid it.productId it.quantity it.unitPrice)) := by
  induction h with
  | nil => exact .nil
  | cons hR hrest ih =>
    obtain ⟨p, hp, rfl⟩ := hR
    exact List.Forall₂.cons ⟨rfl, findProduct_id hp, rfl, p, hp, rfl⟩ ih

theorem filter_userCart_nil (l : List CartItem) (uid : String) :
    (l.filter (fun c => !(c.userId == uid))).filter (fun c => c.userId == uid) = [] := by
  induction l with
  | nil => rfl
  | cons c rest ih =>
    by_cases h : c.userId == uid <;> simp [List.filter_cons, h, ih]

/-- C7: when the OrderItem insert fails after the Order header insert, the
compensating delete removes the header (given the generated order id is
fresh), the operation errors, and no order item, product stock, or cart line
is changed. -/
theorem createOrder_itemsFail (db : DB) (uid addr : String)
    (hne : userCart db uid ≠ [])
    (hall : ∀ c ∈ userCart db uid, ∃ p, findProduct db c.productId = some p ∧
        c.quantity ≤ p.stock)
    (hfresh : ∀ o ∈ db.orders, o.id ≠ db.nextOrderId) :
    (createOrder true uid addr db).2 = .error .failedCreateOrderItems ∧
    (createOrder true uid addr db).1.orders = db.orders ∧
    (createOrder true uid addr db).1.orderItems = db.orderItems ∧
    (createOrder true uid addr db).1.products = db.products ∧
    (createOrder true uid addr db).1.cartItems = db.cartItems := by
  have hall' : ∀ c ∈ userCart db uid, ∃ p, findProduct db c.productId = some p ∧
      ¬ p.stock < c.quantity := by
    intro c hc
    obtain ⟨p, hp, hle⟩ := hall c hc
    exact ⟨p, hp, not_lt.mpr hle⟩
  obtain ⟨staged, joined, hok, -, -⟩ := validateCart_ok_spec db _ hall'
  have hneb := isEmpty_false_of_ne_nil hne
  rw [createOrder_fail_eq db uid addr _ staged joined hneb hok]
  refine ⟨rfl, ?_, rfl, rfl, rfl⟩
  show (db.orders ++
      [(⟨db.nextOrderId, uid, cartTotalPrice db (userCart db uid), addr, .PENDING⟩ : Order)]).filter
      (fun a => !(a.id == db.nextOrderId)) = db.orders
  have h1 : db.orders.filter (fun a => !(a.id == db.nextOrderId)) = db.orders :=
    List.filter_eq_self.mpr (fun a ha => by simp [hfresh a ha])
  have h2 : ([(⟨db.nextOrderId, uid, cartTotalPrice db (userCart db uid), addr,
      .PENDING⟩ : Order)]).filter (fun a => !(a.id == db.nextOrderId)) = [] := by
    simp
  rw [List.filter_append, h1, h2, List.append_nil]

theorem createOrder_itemsFail_witness :
    (createOrder true "u1" "a" dbA).2 = .error .failedCreateOrderItems ∧
    (createOrder true "u1" "a" dbA).1.orders = dbA.orders := by
  have h := createOrder_itemsFail dbA "u1" "a" (by decide)
    (by
      intro c hc
      have hcc : c = ⟨1, "u1", "p1", 2⟩ := by simpa [userCart, dbA] using hc
      subst hcc
      exact ⟨⟨"p1", 100, 5, "P", true⟩, rfl, by decide⟩)
    (by intro o ho; simp [dbA] at ho)
  exact ⟨h.1, h.2.1⟩

/-- C1: on a non-empty cart whose lines all fit current stock (and reference
distinct existing products, the invariant the cart endpoints maintain),
createOrder returns a PENDING order for the requesting user whose total is the
sum of price times quantity over the cart, appends exactly that order and one
order item per cart line (item unit price = product price read now, and the
sum of unitPrice times quantity equals the total), decrements each referenced
product's stock by the ordered quantity, leaves other stock alone, and empties
the user's cart. -/
theorem createOrder_success (db : DB) (uid addr : String)
    (hne : userCart db uid ≠ [])
    (hall : ∀ c ∈ userCart db uid, ∃ p, findProduct db c.productId = some p ∧
        c.quantity ≤ p.stock)
    (hnodup : ((userCart db uid).map CartItem.productId).Nodup) :
    ∃ order items,
      (createOrder false uid addr db).2 = .ok order ∧
      order.status = .PENDING ∧
      order.userId = uid ∧
      order.totalPrice = cartTotalPrice db (userCart db uid) ∧
      (createOrder false uid addr db).1.orders = db.orders ++ [order] ∧
      (createOrder false uid addr db).1.orderItems = db.orderItems ++ items ∧
      List.Forall₂
        (fun (c : CartItem) (it : OrderItem) =>
          it.orderId = order.id ∧ it.productId = c.productId ∧ it.quantity = c.quantity ∧
          ∃ p, findProduct db c.productId = some p ∧ it.unitPrice = p.price)
        (userCart db uid) items ∧
      itemsTotal items = order.totalPrice ∧
      (∀ c ∈ userCart db uid, ∃ p, findProduct db c.productId = some p ∧
          getStock (createOrder false uid addr db).1 c.productId = some (p.stock - c.quantity)) ∧
      (∀ pid : String, (∀ c ∈ userCart db uid, c.productId ≠ pid) →
          getStock (createOrder false uid addr db).1 pid = getStock db pid) ∧
      userCart (createOrder false uid addr db).1 uid = [] := by
  have hall' : ∀ c ∈ userCart db uid, ∃ p, findProduct db c.productId = some p ∧
      ¬ p.stock < c.quantity := by
    intro c hc
    obtain ⟨p, hp, hle⟩ := hall c hc
    exact ⟨p, hp, not_lt.mpr hle⟩
  obtain ⟨staged, joined, hok, hst, hj⟩ := validateCart_ok_spec db _ hall'
  have hneb := isEmpty_false_of_ne_nil hne
  have hco := createOrder_ok_eq db uid addr _ staged joined hneb hok
  refine ⟨⟨db.nextOrderId, uid, cartTotalPrice db (userCart db uid), addr, .PENDING⟩,
    staged.map (fun it => OrderItem.mk db.nextOrderId it.productId it.quantity it.unitPrice),
    ?_, rfl, rfl, rfl, ?_, ?_, ?_, ?_, ?_, ?_, ?_⟩
  · rw [hco]
  · rw [hco]
    show (applyStockUpdates joined
        (orderInsertState db uid addr (cartTotalPrice db (userCart db uid)) staged) staged).orders = _
    rw [(applyStock_fields joined staged _).2.1]
    rfl
  · rw [hco]
    show (applyStockUpdates joined
        (orderInsertState db uid addr (cartTotalPrice db (userCart db uid)) staged) staged).orderItems = _
    rw [(applyStock_fields joined staged _).2.2.1]
    rfl
  · exact forall₂_staged_items hst db.nextOrderId
  · exact itemsTotal_staged hst db.nextOrderId
  · intro c hc
    obtain ⟨p, hp, hle⟩ := hall c hc
    refine ⟨p, hp, ?_⟩
    have hpid : c.productId = (⟨p.id, c.quantity, p.price⟩ : StagedItem).productId :=
      (findProduct_id hp).symm
    obtain ⟨it, hit, hR⟩ := forall₂_mem_left hst hc
    obtain ⟨p', hp', rfl⟩ := hR
    rw [hp] at hp'
    obtain rfl := Option.some.inj hp'
    have hnodup' : (staged.map StagedItem.productId).Nodup := by
      rw [staged_map_productId hst]; exact hnodup
    have hsnap : snapProduct joined (⟨p.id, c.quantity, p.price⟩ : StagedItem).productId = some p := by
      show snapProduct joined p.id = some p
      rw [show p.id = c.productId from findProduct_id hp,
        snapProduct_of_joined hj ⟨c, hc, rfl⟩]
      exact hp
    have hmem := getStock_applyStock_mem joined hnodup' hit hsnap
      (orderInsertState db uid addr (cartTotalPrice db (userCart db uid)) staged)
    have hs1 : getStock (createOrder false uid addr db).1 c.productId =
        getStock (applyStockUpdates joined
          (orderInsertState db uid addr (cartTotalPrice db (userCart db uid)) staged) staged)
          c.productId := by
      rw [hco]
      exact getStock_eq_of_products_eq rfl _
    rw [hs1, hpid, hmem]
    have hs2 : getStock
        (orderInsertState db uid addr (cartTotalPrice db (userCart db uid)) staged)
        (⟨p.id, c.quantity, p.price⟩ : StagedItem).productId = some p.stock := by
      show getStock db p.id = some p.stock
      rw [show p.id = c.productId from findProduct_id hp]
      simp [getStock, hp]
    rw [hs2]
    rfl
  · intro pid hnp
    have hnotin : ∀ it ∈ staged, it.productId ≠ pid := by
      intro it hit
      have hmm : it.productId ∈ (userCart db uid).map CartItem.productId := by
        rw [← staged_map_productId hst]
        exact List.mem_map_of_mem _ hit
      obtain ⟨c, hc, hcp⟩ := List.mem_map.mp hmm
      rw [← hcp]
      exact hnp c hc
    rw [hco]
    exact (getStock_eq_of_products_eq rfl pid).trans
      ((getStock_applyStock_notmem joined hnotin _).trans
        (getStock_eq_of_products_eq rfl pid))
  · rw [hco]
    have h3 : (applyStockUpdates joined
        (orderInsertState db uid addr (cartTotalPrice db (userCart db uid)) staged)
        staged).cartItems = db.cartItems :=
      (applyStock_fields joined staged _).1
    show ((applyStockUpdates joined
        (orderInsertState db uid addr (cartTotalPrice db (userCart db uid)) staged)
        staged).cartItems.filter (fun c => !(c.userId == uid))).filter
        (fun c => c.userId == uid) = []
    rw [h3]
    exact filter_userCart_nil db.cartItems uid

theorem createOrder_success_concrete :
    (createOrder false "u1" "a" dbA).2 = .ok ⟨1, "u1", 200, "a", .PENDING⟩ ∧
    getStock (createOrder false "u1" "a" dbA).1 "p1" = some 3 ∧
    userCart (createOrder false "u1" "a" dbA).1 "u1" = [] := by
  obtain ⟨order, items, h2, -, -, -, -, -, -, -, hstock, -, hcart⟩ :=
    createOrder_success dbA "u1" "a" (by decide)
      (by
        intro c hc
        have hcc : c = ⟨1, "u1", "p1", 2⟩ := by simpa [userCart, dbA] using hc
        subst hcc
        exact ⟨⟨"p1", 100, 5, "P", true⟩, rfl, by decide⟩)
      (by decide)
  have hordv : order = ⟨1, "u1", 200, "a", .PENDING⟩ := by
    have h0 : (createOrder false "u1" "a" dbA).2 = .ok ⟨1, "u1", 200, "a", .PENDING⟩ := by
      rfl
    rw [h0] at h2
    exact (Except.ok.inj h2).symm
  refine ⟨hordv ▸ h2, ?_, hcart⟩
  obtain ⟨p, hp, hs⟩ := hstock ⟨1, "u1", "p1", 2⟩ (by decide)
  have h0 : findProduct dbA "p1" = some ⟨"p1", 100, 5, "P", true⟩ := rfl
  rw [h0] at hp
  obtain rfl := Option.some.inj hp
  exact hs.trans (by decide)

theorem addToCart_existing_witness :
    (addToCart "u1" "p1" 2 dbA).2 = .ok ⟨1, "u1", "p1", 4⟩ ∧
    (addToCart "u1" "p1" 2 dbA).1.cartItems.length = dbA.cartItems.length := by
  have h := (addToCart_existing dbA "u1" "p1" 2 ⟨"p1", 100, 5, "P", true⟩
    ⟨1, "u1", "p1", 2⟩ rfl rfl (by decide) rfl).2.1 (by decide)
  exact ⟨h.1, h.2.2.1⟩

/-! ## createOrder never reads isActive -/

theorem findProduct_setActive (f : String → Bool) (db : DB) (pid : String) :
    findProduct (setActive f db) pid = (findProduct db pid).map (setActiveP f) := by
  unfold findProduct setActive
  exact find?_map_pred _ _ _ (fun p => rfl)

theorem validateCart_setActive (f : String → Bool) (db : DB) (cs : List CartItem) :
    validateCart (setActive f db) cs =
      (validateCart db cs).map
        (fun x => (x.1, x.2.1, x.2.2.map (fun cp => (cp.1, setActiveP f cp.2)))) := by
  induction cs with
  | nil => rfl
  | cons c rest ih =>
    unfold validateCart
    rw [findProduct_setActive]
    cases hp : findProduct db c.productId with
    | none => rfl
    | some p =>
      dsimp only [Option.map_some', setActiveP]
      by_cases hs : p.stock < c.quantity
      · rw [if_pos hs, if_pos hs]
        rfl
      · rw [if_neg hs, if_neg hs, ih]
        cases hv : validateCart db rest with
        | error e => rfl
        | ok x =>
          obtain ⟨t, staged, joined⟩ := x
          rfl

theorem snapProduct_setActive (f : String → Bool)
    (joined : List (CartItem × Product)) (pid : String) :
    snapProduct (joined.map (fun cp => (cp.1, setActiveP f cp.2))) pid =
      (snapProduct joined pid).map (setActiveP f) := by
  unfold snapProduct
  rw [find?_map_pred (fun cp => (cp.1, setActiveP f cp.2))
    (fun cp => cp.2.id == pid) joined (fun cp => rfl)]
  cases joined.find? (fun cp => cp.2.id == pid) <;> rfl

theorem setStock_setActive (f : String → Bool) (db : DB) (pid : String) (v : Int) :
    setProductStock (setActive f db) pid v = setActive f (setProductStock db pid v) := by
  unfold setProductStock setActive
  dsimp only
  congr 1
  rw [List.map_map, List.map_map]
  congr 1
  funext p
  by_cases h : p.id == pid <;> simp [Function.comp, setActiveP, h]

theorem applyStock_setActive (f : String → Bool) (joined : List (CartItem × Product))
    (sts : List StagedItem) (db : DB) :
    applyStockUpdates (joined.map (fun cp => (cp.1, setActiveP f cp.2)))
      (setActive f db) sts =
      setActive f (applyStockUpdates joined db sts) := by
  induction sts generalizing db with
  | nil => rfl
  | cons it rest ih =>
    unfold applyStockUpdates
    rw [snapProduct_setActive]
    cases hs : snapProduct joined it.productId with
    | none => exact ih db
    | some p =>
      dsimp only [Option.map_some', setActiveP]
      rw [setStock_setActive]
      exact ih _

/-- C8: createOrder never consults `isActive`.  Rewriting every product's
`isActive` flag (by `setActive f`, for an arbitrary reassignment `f` keyed by
product id) leaves the outcome — success or failure, error message, returned
order — unchanged, and the resulting database differs from the original run's
result only by that same flag rewrite (identical stock, orders, order items
and cart lines).  In particular an order can be placed for a product that
became inactive after it was added to the cart, provided stock suffices. -/
theorem createOrder_ignores_isActive (f : String → Bool) (fail : Bool)
    (uid addr : String) (db : DB) :
    (createOrder fail uid addr (setActive f db)).2 = (createOrder fail uid addr db).2 ∧
    (createOrder fail uid addr (setActive f db)).1 =
      setActive f (createOrder fail uid addr db).1 := by
  have hcart : userCart (setActive f db) uid = userCart db uid := rfl
  by_cases hc : userCart db uid = []
  · have h1 : createOrder fail uid addr db = (db, .error .cartEmpty) := by
      simp [createOrder, hc]
    have h2 : createOrder fail uid addr (setActive f db) =
        (setActive f db, .error .cartEmpty) := by
      simp [createOrder, hcart, hc]
    rw [h1, h2]
    exact ⟨rfl, rfl⟩
  · have hneb := isEmpty_false_of_ne_nil hc
    have hneb' : (userCart (setActive f db) uid).isEmpty = false := by
      rw [hcart]; exact hneb
    cases hv : validateCart db (userCart db uid) with
    | error e =>
      have hv' : validateCart (setActive f db) (userCart (setActive f db) uid) =
          .error e := by
        rw [hcart, validateCart_setActive, hv]
        rfl
      have h1 : createOrder fail uid addr db = (db, .error e) := by
        simp [createOrder, hneb, hv]
      have h2 : createOrder fail uid addr (setActive f db) = (setActive f db, .error e) := by
        simp [createOrder, hneb', hv']
      rw [h1, h2]
      exact ⟨rfl, rfl⟩
    | ok x =>
      obtain ⟨t, staged, joined⟩ := x
      have hv' : validateCart (setActive f db) (userCart (setActive f db) uid) =
          .ok (t, staged, joined.map (fun cp => (cp.1, setActiveP f cp.2))) := by
        rw [hcart, validateCart_setActive, hv]
        rfl
      cases fail with
      | true =>
        rw [createOrder_fail_eq db uid addr t staged joined hneb hv,
          createOrder_fail_eq (setActive f db) uid addr t staged
            (joined.map (fun cp => (cp.1, setActiveP f cp.2))) hneb' hv']
        exact ⟨rfl, rfl⟩
      | false =>
        rw [createOrder_ok_eq db uid addr t staged joined hneb hv,
          createOrder_ok_eq (setActive f db) uid addr t staged
            (joined.map (fun cp => (cp.1, setActiveP f cp.2))) hneb' hv']
        have key : applyStockUpdates (joined.map (fun cp => (cp.1, setActiveP f cp.2)))
            (orderInsertState (setActive f db) uid addr t staged) staged =
            setActive f (applyStockUpdates joined (orderInsertState db uid addr t staged) staged) := by
          rw [show orderInsertState (setActive f db) uid addr t staged =
              setActive f (orderInsertState db uid addr t staged) from rfl]
          exact applyStock_setActive f joined staged _
        rw [key]
        exact ⟨rfl, rfl⟩

end Shop
